import Mathlib

/-!
Verification of the REST Explorer extension core (src/src/extension.ts).

The development shallowly embeds the request-execution pipeline
(`makeRequest` in `activate`, and the history view controller in
`RestExplorerViewProvider.resolveWebviewView`) as pure Lean functions.
JavaScript strings are modelled as Lean `String`; JavaScript objects
used as string-keyed records (`Record<string, string>`) are modelled as
association lists with the exact-key lookup/assignment semantics of
JavaScript property access; `undefined`-able fields are `Option`;
the network, the URL parser and the system clock are modelled as
explicit oracle arguments, since they are external to the source.
-/

set_option autoImplicit false

namespace RestExplorer

/-- JavaScript truthiness of a string: truthy iff non-empty. -/
def truthy (s : String) : Bool := s ≠ ""

/-- JavaScript truthiness of a possibly-`undefined` string field. -/
def otruthy : Option String → Bool
  | none => false
  | some s => truthy s

/-- Splits a list of characters at every occurrence of `sep`,
mirroring JavaScript `String.prototype.split` with a one-character
separator: the result always has at least one (possibly empty) piece. -/
def splitOnCharAux (sep : Char) : List Char → List Char → List (List Char)
  | [], acc => [acc.reverse]
  | c :: rest, acc =>
      if c = sep then acc.reverse :: splitOnCharAux sep rest []
      else splitOnCharAux sep rest (c :: acc)

/-- JavaScript `s.split(sep)` for a one-character separator. -/
def jsSplit (s : String) (sep : Char) : List String :=
  (splitOnCharAux sep s.toList []).map (fun l => String.mk l)

/-- Strips leading and trailing whitespace from a character list. -/
def trimChars (l : List Char) : List Char :=
  ((l.dropWhile Char.isWhitespace).reverse.dropWhile Char.isWhitespace).reverse

/-- JavaScript `s.trim()`. -/
def jsTrim (s : String) : String := String.mk (trimChars s.toList)

/-- JavaScript `s.toLowerCase()` (ASCII range suffices for header names). -/
def jsToLower (s : String) : String := String.mk (s.toList.map Char.toLower)

/-- Rendering of a possibly-`undefined` string inside a JavaScript
template literal: `undefined` renders as the text `"undefined"`. -/
def jsTemplate : Option String → String
  | none => "undefined"
  | some s => s

/-- UTF-8 encoding of a single character, as `Buffer.from` performs on
each code point of a JavaScript string. -/
def utf8EncodeChar (c : Char) : List Nat :=
  let n := c.toNat
  if n < 0x80 then [n]
  else if n < 0x800 then
    [0xC0 ||| (n >>> 6), 0x80 ||| (n &&& 0x3F)]
  else if n < 0x10000 then
    [0xE0 ||| (n >>> 12), 0x80 ||| ((n >>> 6) &&& 0x3F), 0x80 ||| (n &&& 0x3F)]
  else
    [0xF0 ||| (n >>> 18), 0x80 ||| ((n >>> 12) &&& 0x3F),
     0x80 ||| ((n >>> 6) &&& 0x3F), 0x80 ||| (n &&& 0x3F)]

/-- UTF-8 byte sequence of a string (`Buffer.from(s)`). -/
def utf8Bytes (s : String) : List Nat :=
  (s.toList.map utf8EncodeChar).flatten

/-- The RFC 4648 base64 alphabet. -/
def b64Alphabet : List Char :=
  "ABCDEFGHIJKLMNOPQRSTUVWXYZabcdefghijklmnopqrstuvwxyz0123456789+/".toList

/-- Character for a 6-bit group. -/
def b64Char (n : Nat) : Char := b64Alphabet.getD n 'A'

/-- Standard base64 encoding with padding, as produced by
`Buffer.prototype.toString("base64")`. -/
def base64Encode : List Nat → String
  | [] => ""
  | [b1] =>
      String.mk [b64Char (b1 >>> 2), b64Char ((b1 &&& 0x3) <<< 4)] ++ "=="
  | [b1, b2] =>
      String.mk [b64Char (b1 >>> 2), b64Char (((b1 &&& 0x3) <<< 4) ||| (b2 >>> 4)),
                 b64Char ((b2 &&& 0xF) <<< 2)] ++ "="
  | b1 :: b2 :: b3 :: rest =>
      String.mk [b64Char (b1 >>> 2), b64Char (((b1 &&& 0x3) <<< 4) ||| (b2 >>> 4)),
                 b64Char (((b2 &&& 0xF) <<< 2) ||| (b3 >>> 6)), b64Char (b3 &&& 0x3F)] ++
        base64Encode rest

/-- `base64(s)` of a JavaScript string: UTF-8 bytes, then base64. -/
def base64OfString (s : String) : String := base64Encode (utf8Bytes s)

/-! ## String-keyed records (JavaScript objects) -/

/-- A `Record<string, string>`: an association list whose keys are
unique by construction (JavaScript objects cannot hold a key twice). -/
abbrev StrRecord := List (String × String)

/-- JavaScript property read `obj[k]`: exact (case-sensitive) key
match (keys are unique in a JavaScript object, so first match is the
only match). -/
def getKey : StrRecord → String → Option String
  | [], _ => none
  | (k1, v1) :: t, k => if k1 == k then some v1 else getKey t k

/-- JavaScript property write `obj[k] = v`: overwrites an existing key
in place (keeping its position) or appends a new key at the end. -/
def setKey (h : StrRecord) (k v : String) : StrRecord :=
  match h with
  | [] => [(k, v)]
  | (k1, v1) :: t => if k1 == k then (k, v) :: t else (k1, v1) :: setKey t k v

/-! ## Data model (interfaces of extension.ts) -/

/-- The `auth` field of a `WebviewMessage`:
`{ type: string; username?; password?; token? }`. -/
structure AuthSpec where
  type : String
  username : Option String := none
  password : Option String := none
  token : Option String := none
deriving DecidableEq, Repr

/-- The `WebviewMessage` interface: every field but `command` is optional. -/
structure WebviewMessage where
  command : String
  url : Option String := none
  method : Option String := none
  headers : Option StrRecord := none
  body : Option String := none
  query : Option StrRecord := none
  auth : Option AuthSpec := none
deriving DecidableEq, Repr

/-- The `ResponseData` interface (the spec calls it `ResponseRecord`). -/
structure ResponseData where
  status : Nat
  statusText : String
  headers : StrRecord
  body : String
  size : Nat
  time : Nat
  cookies : StrRecord
deriving DecidableEq, Repr

/-- The `options` object handed to `fetch`: method, headers, and the
optionally attached body. -/
structure FetchOptions where
  method : String
  headers : StrRecord
  body : Option String := none
deriving DecidableEq, Repr

/-- The slice of `process.env` the source touches. -/
structure ProcessEnv where
  nodeTlsRejectUnauthorized : Option String := none
deriving DecidableEq, Repr

/-! ## Request pipeline (makeRequest, lines 299-379 of extension.ts) -/

/-- Auth application (the `switch (message.auth.type)` block): `basic`
sets `Authorization: Basic base64(username + ":" + password)`, `bearer`
sets `Authorization: Bearer token`, any other type falls through. -/
def applyAuth (auth : Option AuthSpec) (headers : StrRecord) : StrRecord :=
  match auth with
  | none => headers
  | some a =>
      if a.type == "basic" then
        setKey headers "Authorization"
          ("Basic " ++ base64OfString (jsTemplate a.username ++ ":" ++ jsTemplate a.password))
      else if a.type == "bearer" then
        setKey headers "Authorization" ("Bearer " ++ jsTemplate a.token)
      else headers

/-- Body attachment (the `if (["POST","PUT","PATCH"].includes ...)`
block): attaches the body when the method is POST/PUT/PATCH and the
body field is truthy, defaulting `Content-Type` to `application/json`
when the (exact-key) `Content-Type` entry is absent or falsy. -/
def attachBody (method : String) (body : Option String) (opts : FetchOptions) : FetchOptions :=
  if (["POST", "PUT", "PATCH"].contains method) && otruthy body then
    let opts1 : FetchOptions := { opts with body := body }
    if otruthy (getKey opts1.headers "Content-Type") then opts1
    else { opts1 with headers := setKey opts1.headers "Content-Type" "application/json" }
  else opts

/-- The `options` object as built by `makeRequest` before dispatch:
start from `message.headers || {}`, apply auth, then the body gate. -/
def buildOptions (m : WebviewMessage) : FetchOptions :=
  let methodStr := m.method.getD ""
  let base : FetchOptions := { method := methodStr, headers := m.headers.getD [] }
  let withAuth : FetchOptions := { base with headers := applyAuth m.auth base.headers }
  attachBody methodStr m.body withAuth

/-! ## Response normalization -/

/-- The `forEach` callback of the cookie loop: split the segment on
`=` (JavaScript `split` splits at every `=`, and the destructuring
`[name, value]` keeps only the first two pieces); keep the pair when
both pieces are truthy, storing trimmed name and value. -/
def cookieStep (cookies : StrRecord) (cookie : String) : StrRecord :=
  match jsSplit cookie '=' with
  | name :: value :: _ =>
      if truthy name && truthy value then setKey cookies (jsTrim name) (jsTrim value)
      else cookies
  | _ => cookies

/-- Cookie parsing: split the `set-cookie` header value on `;` and run
the callback over the segments. -/
def parseCookies (setCookieHeader : Option String) : StrRecord :=
  match setCookieHeader with
  | none => []
  | some h => (jsSplit h ';').foldl cookieStep []

/-- Header conversion: `response.headers.forEach((value, key) => headers[key] = value)` —
last write wins for a repeated key. -/
def headersOf (entries : List (String × String)) : StrRecord :=
  entries.foldl (fun acc p => setKey acc p.1 p.2) []

/-! ## Failure path -/

/-- The value caught by the `catch (error: unknown)` block: an `Error`
object (carrying its `message`), a plain string, or anything else. -/
inductive CaughtError where
  | errorObj (message : String)
  | stringErr (s : String)
  | otherErr
deriving DecidableEq, Repr

/-- The error message the catch block extracts: `error.message` for an
`Error`, the string itself for a string, otherwise the fixed fallback. -/
def errorMessageOf : CaughtError → String
  | .errorObj msg => msg
  | .stringErr s => s
  | .otherErr => "An unknown error occurred"

/-- The failure `ResponseData` built in the catch block. -/
def errorResponse (e : CaughtError) (time : Nat) : ResponseData :=
  { status := 0
    statusText := "Error"
    headers := []
    body := errorMessageOf e
    size := (errorMessageOf e).length
    time := time
    cookies := [] }

/-! ## The executor -/

/-- Outcome of the awaited `fetch` call plus `response.text()`:
either a raw transport response, or a rejection. The raw response
carries the status line, the iterable header entries (as seen by
`headers.forEach`) and the string `headers.get("set-cookie")` returns. -/
inductive FetchOutcome where
  | success (status : Nat) (statusText : String)
      (headerEntries : List (String × String)) (setCookie : Option String) (text : String)
  | failure (err : CaughtError)
deriving DecidableEq, Repr

/-- Outcome of the whole `try` block as decided by the environment:
either `new URL(message.url)` throws before any dispatch, or the
request is dispatched with some `FetchOutcome`. -/
inductive TryOutcome where
  | parseError (err : CaughtError)
  | dispatched (outcome : FetchOutcome)
deriving DecidableEq, Repr

/-- Whether the outcome reaches the `fetch` call. -/
def TryOutcome.isDispatched : TryOutcome → Bool
  | .parseError _ => false
  | .dispatched _ => true

/-- The executor `makeRequest` (lines 299-379): a total function from
the message, the environment oracle for the try block, the two clock
readings, and the process environment, to the produced `ResponseData`
and the process environment afterwards. The TLS-validation flag
`NODE_TLS_REJECT_UNAUTHORIZED` is set to "0" exactly when the code
reaches the line before `fetch`, and is never restored. -/
def makeRequest (m : WebviewMessage) (oracle : TryOutcome)
    (startTime endTime : Nat) (env : ProcessEnv) : ResponseData × ProcessEnv :=
  match oracle with
  | .parseError e => (errorResponse e (endTime - startTime), env)
  | .dispatched out =>
      let _opts := buildOptions m
      let env1 : ProcessEnv := { env with nodeTlsRejectUnauthorized := some "0" }
      match out with
      | .failure e => (errorResponse e (endTime - startTime), env1)
      | .success status statusText headerEntries setCookie text =>
          ({ status := status
             statusText := statusText
             headers := headersOf headerEntries
             body := text
             size := text.length
             time := endTime - startTime
             cookies := parseCookies setCookie }, env1)

/-! ## History view controller
(`RestExplorerViewProvider.resolveWebviewView`, lines 60-90)

The handler runs on a single-threaded event loop: an incoming webview
message is one event; the resolution of a pending `makeRequest` promise
(the `.then` callback that appends to `_history` and re-renders) is a
separate, later event. We model the controller as a step function on
events, returning the new state and the externally visible effects. -/

/-- A `RequestHistory` entry. -/
structure RequestHistory where
  url : String
  method : String
  timestamp : Nat
  response : ResponseData
deriving DecidableEq, Repr

/-- The mutable state of the history view provider: `_history`. -/
structure ControllerState where
  history : List RequestHistory
deriving DecidableEq, Repr

/-- Externally visible actions of the controller. -/
inductive Effect where
  | issueRequest (m : WebviewMessage)
  | postResponse (r : ResponseData)
  | openExternal (url : String)
  | createPanel
  | rerender
deriving DecidableEq, Repr

/-- An event on the controller event loop: a message arriving from the
webview, or the completion of a previously issued network call (with
the message it was issued for, the normalized response, and the
`Date.now()` reading taken in the `.then` callback). -/
inductive Event where
  | message (m : WebviewMessage)
  | completion (m : WebviewMessage) (r : ResponseData) (timestamp : Nat)
deriving DecidableEq, Repr

/-- The entry the `.then` callback appends. -/
def entryOf (m : WebviewMessage) (r : ResponseData) (ts : Nat) : RequestHistory :=
  { url := m.url.getD "", method := m.method.getD "", timestamp := ts, response := r }

/-- The `onDidReceiveMessage` handler of the history view (the
`switch (message.command)` at lines 62-85): `makeRequest` with truthy
`url` and `method` issues the call (history changes only on
completion); `openLink` with truthy `url` opens it externally;
`startNewRequest` delegates to panel creation; anything else — an
unknown command, or `makeRequest`/`openLink` with a falsy payload —
does nothing. -/
def handleMessage (s : ControllerState) (m : WebviewMessage) : ControllerState × List Effect :=
  if m.command == "makeRequest" then
    if otruthy m.url && otruthy m.method then (s, [.issueRequest m]) else (s, [])
  else if m.command == "openLink" then
    if otruthy m.url then (s, [.openExternal (m.url.getD "")]) else (s, [])
  else if m.command == "startNewRequest" then (s, [.createPanel])
  else (s, [])

/-- Completion of an issued call: the provider `makeRequest` posts the
response to the webview, then the `.then` callback pushes the new
`RequestHistory` entry and triggers `_update()` (a full re-render). -/
def handleCompletion (s : ControllerState) (m : WebviewMessage) (r : ResponseData)
    (ts : Nat) : ControllerState × List Effect :=
  ({ history := s.history ++ [entryOf m r ts] }, [.postResponse r, .rerender])

/-- One step of the controller event loop. -/
def stepEvent (s : ControllerState) : Event → ControllerState × List Effect
  | .message m => handleMessage s m
  | .completion m r ts => handleCompletion s m r ts

/-- Running a sequence of events. -/
def runEvents (s : ControllerState) : List Event → ControllerState
  | [] => s
  | e :: rest => runEvents (stepEvent s e).1 rest

/-- The entry a completion event appends, if the event is a completion. -/
def completionEntry : Event → Option RequestHistory
  | .message _ => none
  | .completion m r ts => some (entryOf m r ts)

/-- Modelled from the claim wording for the cookie parser: split the
header on ";", split each segment on the FIRST "=" (the name is the
text before it, the value is everything after it), and silently drop
segments that lack an "=" or whose name or value is empty after
trimming. -/
def specParseCookies (setCookieHeader : Option String) : StrRecord :=
  match setCookieHeader with
  | none => []
  | some h =>
      (jsSplit h ';').foldl
        (fun cookies segment =>
          match jsSplit segment '=' with
          | name :: piece :: rest =>
              let value := String.intercalate "=" (piece :: rest)
              if jsTrim name != "" && jsTrim value != "" then
                setKey cookies (jsTrim name) (jsTrim value)
              else cookies
          | _ => cookies)
        []

/-- Per-segment extraction per the amended claim: split the segment on
"=", take the first two pieces as name and value (a value containing
"=" is cut at the second "="), drop the segment when it has no "=" or
when the extracted name or value is the empty string (before
trimming); otherwise keep the trimmed pair. -/
def amendedSegmentPair (segment : String) : Option (String × String) :=
  match jsSplit segment '=' with
  | name :: value :: _ =>
      if truthy name && truthy value then some (jsTrim name, jsTrim value) else none
  | _ => none

/-- Modelled from the amended claim wording: the mapping collects the
extracted pairs of the segments in order, later pairs overwriting an
earlier pair with the same name. -/
def amendedParseCookies (setCookieHeader : Option String) : StrRecord :=
  match setCookieHeader with
  | none => []
  | some h =>
      ((jsSplit h ';').filterMap amendedSegmentPair).foldl
        (fun acc p => setKey acc p.1 p.2) []

/-- Number of entries of a header record whose key is `Authorization`
up to ASCII case (how the transport identifies the header). -/
def countAuthorization (h : StrRecord) : Nat :=
  (h.filter (fun p => jsToLower p.1 == "authorization")).length

/-- The request-editor panel handler (`panel.webview.onDidReceiveMessage`
in `createNewRequestPanel`, lines 401-417): only a `makeRequest`
message with truthy `url` and `method` does anything (issues the call
and later posts the response); every other message is ignored. -/
def panelHandleMessage (m : WebviewMessage) : List Effect :=
  if m.command == "makeRequest" && otruthy m.url && otruthy m.method then
    [.issueRequest m]
  else []

/-! ## Record lemmas -/

theorem getKey_setKey_self (h : StrRecord) (k v : String) :
    getKey (setKey h k v) k = some v := by
  induction h with
  | nil => simp [setKey, getKey]
  | cons p t ih =>
      obtain ⟨k1, v1⟩ := p
      by_cases hk : k1 = k
      · simp [setKey, getKey, hk]
      · simp [setKey, getKey, hk, ih]

theorem getKey_setKey_ne (h : StrRecord) (k k2 v : String) (hne : k2 ≠ k) :
    getKey (setKey h k v) k2 = getKey h k2 := by
  induction h with
  | nil => simp [setKey, getKey, hne.symm]
  | cons p t ih =>
      obtain ⟨k1, v1⟩ := p
      by_cases hk : k1 = k
      · subst hk
        simp [setKey, getKey, hne.symm]
      · simp [setKey, getKey, hk, ih]

theorem setKey_of_getKey_none (h : StrRecord) (k v : String) (h0 : getKey h k = none) :
    setKey h k v = h ++ [(k, v)] := by
  induction h with
  | nil => simp [setKey]
  | cons p t ih =>
      obtain ⟨k1, v1⟩ := p
      by_cases hk : k1 = k
      · simp [getKey, hk] at h0
      · simp [getKey, hk] at h0
        simp [setKey, hk, ih h0]

theorem getKey_applyAuth_ne (auth : Option AuthSpec) (hs : StrRecord) (k : String)
    (hk : k ≠ "Authorization") :
    getKey (applyAuth auth hs) k = getKey hs k := by
  cases auth with
  | none => rfl
  | some a =>
      by_cases h1 : a.type = "basic"
      · simp [applyAuth, h1, getKey_setKey_ne _ _ _ _ hk]
      · by_cases h2 : a.type = "bearer"
        · simp [applyAuth, h1, h2, getKey_setKey_ne _ _ _ _ hk]
        · simp [applyAuth, h1, h2]

theorem getKey_attachBody_ne (method : String) (body : Option String) (opts : FetchOptions)
    (k : String) (hk : k ≠ "Content-Type") :
    getKey (attachBody method body opts).headers k = getKey opts.headers k := by
  unfold attachBody
  split
  · dsimp only
    split
    · rfl
    · exact getKey_setKey_ne _ _ _ _ hk
  · rfl

theorem attachBody_body (method : String) (body : Option String) (opts : FetchOptions) :
    (attachBody method body opts).body =
      if (["POST", "PUT", "PATCH"].contains method) && otruthy body then body
      else opts.body := by
  unfold attachBody
  split
  · dsimp only
    split <;> rfl
  · rfl

theorem attachBody_headers_pos (method : String) (body : Option String) (opts : FetchOptions)
    (hc : ((["POST", "PUT", "PATCH"].contains method) && otruthy body) = true) :
    (attachBody method body opts).headers =
      if otruthy (getKey opts.headers "Content-Type") then opts.headers
      else setKey opts.headers "Content-Type" "application/json" := by
  unfold attachBody
  simp only [hc, if_true]
  split <;> simp_all

theorem buildOptions_headers (m : WebviewMessage) :
    (buildOptions m).headers =
      (attachBody (m.method.getD "") m.body
        { method := m.method.getD ""
          headers := applyAuth m.auth (m.headers.getD []) }).headers := rfl

theorem buildOptions_body (m : WebviewMessage) :
    (buildOptions m).body =
      if (["POST", "PUT", "PATCH"].contains (m.method.getD "")) && otruthy m.body
      then m.body else none := by
  simpa [buildOptions] using
    attachBody_body (m.method.getD "") m.body
      { method := m.method.getD "", headers := applyAuth m.auth (m.headers.getD []) }

/-! ## Claim theorems -/

/-- Claim C3: for every valid `RequestDescription` whose `auth.type` is
`basic`, the outgoing `Authorization` header equals
`"Basic " ++ base64(username ++ ":" ++ password)` exactly, including
when the username or the password is the empty string. -/
theorem claim3_basic_authorization (m : WebviewMessage) (a : AuthSpec) (u p : String)
    (ha : m.auth = some a) (ht : a.type = "basic")
    (hu : a.username = some u) (hp : a.password = some p) :
    getKey (buildOptions m).headers "Authorization" =
      some ("Basic " ++ base64OfString (u ++ ":" ++ p)) := by
  rw [buildOptions_headers, getKey_attachBody_ne _ _ _ _ (by decide)]
  simp [applyAuth, ha, ht, hu, hp, jsTemplate, getKey_setKey_self]

/-- Witness for C3 at empty username and password:
`base64(":") = "Og=="`. -/
theorem claim3_witness :
    getKey (buildOptions
      { command := "makeRequest", url := some "http://x/", method := some "GET",
        auth := some { type := "basic", username := some "", password := some "" } }).headers
      "Authorization" = some "Basic Og==" := by
  have h := claim3_basic_authorization
    { command := "makeRequest", url := some "http://x/", method := some "GET",
      auth := some { type := "basic", username := some "", password := some "" } }
    { type := "basic", username := some "", password := some "" } "" "" rfl rfl rfl rfl
  exact h.trans (by decide)

/-- Claim C4: for every `RequestDescription` with method in
{GET, HEAD, DELETE, OPTIONS} and a non-empty body, no body is attached
to the outgoing request; a body is attached only when the method is
POST, PUT or PATCH and the body is non-empty. -/
theorem claim4_body_gate (m : WebviewMessage) (M : String) (hm : m.method = some M) :
    (M ∈ ["GET", "HEAD", "DELETE", "OPTIONS"] → (buildOptions m).body = none) ∧
    (∀ b : String, (buildOptions m).body = some b →
      M ∈ ["POST", "PUT", "PATCH"] ∧ m.body = some b ∧ b ≠ "") := by
  constructor
  · intro hM
    rw [buildOptions_body, hm]
    simp only [Option.getD_some]
    rcases (by simpa using hM : M = "GET" ∨ M = "HEAD" ∨ M = "DELETE" ∨ M = "OPTIONS")
      with rfl | rfl | rfl | rfl <;> simp
  · intro b hb
    rw [buildOptions_body, hm] at hb
    simp only [Option.getD_some] at hb
    by_cases hc : ((["POST", "PUT", "PATCH"].contains M) && otruthy m.body) = true
    · rw [if_pos hc] at hb
      have hmem : M ∈ ["POST", "PUT", "PATCH"] :=
        List.mem_of_elem_eq_true (Bool.and_elim_left hc)
      have hot : otruthy m.body = true := Bool.and_elim_right hc
      refine ⟨hmem, hb, ?_⟩
      rw [hb] at hot
      simpa [otruthy, truthy] using hot
    · rw [if_neg hc] at hb
      exact absurd hb (by simp)

/-- Witness for C4: a GET message with a non-empty body gets no body
attached. -/
theorem claim4_witness :
    (buildOptions
      { command := "makeRequest", url := some "http://x/",
        method := some "GET", body := some "payload" }).body = none :=
  (claim4_body_gate _ "GET" rfl).1 (by decide)

/-- Claim C5: whenever a body is attached (method POST/PUT/PATCH with a
non-empty body) and the enabled headers carry no `Content-Type` entry,
the outgoing headers gain `Content-Type: application/json`; an already
present (non-empty, as enabled rows are) `Content-Type` is left
unchanged. -/
theorem claim5_content_type_default (m : WebviewMessage) (M b : String)
    (hm : m.method = some M) (hM : M ∈ ["POST", "PUT", "PATCH"])
    (hb : m.body = some b) (hbne : b ≠ "") :
    (getKey (m.headers.getD []) "Content-Type" = none →
      getKey (buildOptions m).headers "Content-Type" = some "application/json") ∧
    (∀ v, getKey (m.headers.getD []) "Content-Type" = some v → v ≠ "" →
      getKey (buildOptions m).headers "Content-Type" = some v) := by
  have hcontains : (["POST", "PUT", "PATCH"].contains M) = true := by
    rcases (by simpa using hM : M = "POST" ∨ M = "PUT" ∨ M = "PATCH")
      with rfl | rfl | rfl <;> decide
  have hc : ((["POST", "PUT", "PATCH"].contains M) && otruthy m.body) = true := by
    rw [hcontains, hb]
    simp [otruthy, truthy, hbne]
  have hCT : getKey (applyAuth m.auth (m.headers.getD [])) "Content-Type" =
      getKey (m.headers.getD []) "Content-Type" :=
    getKey_applyAuth_ne _ _ _ (by decide)
  have hhd := buildOptions_headers m
  rw [hm] at hhd
  simp only [Option.getD_some] at hhd
  constructor
  · intro h0
    rw [hhd, attachBody_headers_pos _ _ _ hc]
    simp [hCT, h0, otruthy, getKey_setKey_self]
  · intro v hv hvne
    rw [hhd, attachBody_headers_pos _ _ _ hc]
    simp [hCT, hv, otruthy, truthy, hvne]

/-- Witness for C5: a POST with body and no `Content-Type` row gets
`Content-Type: application/json`. -/
theorem claim5_witness :
    getKey (buildOptions
      { command := "makeRequest", url := some "http://x/",
        method := some "POST", headers := some [("Accept", "text/plain")],
        body := some "x" }).headers "Content-Type" = some "application/json" :=
  (claim5_content_type_default _ "POST" "x" rfl (by decide) rfl (by decide)).1 (by decide)

/-! ## Counting Authorization entries -/

theorem countAuthorization_cons (x : String × String) (t : StrRecord) :
    countAuthorization (x :: t) =
      countAuthorization t + (if jsToLower x.1 == "authorization" then 1 else 0) := by
  by_cases hx : (jsToLower x.1 == "authorization") = true
  · simp [countAuthorization, List.filter_cons, hx, Nat.add_comm]
  · simp only [Bool.not_eq_true] at hx
    simp [countAuthorization, List.filter_cons, hx]

theorem countAuthorization_eq_zero (h : StrRecord) :
    (∀ p ∈ h, jsToLower p.1 ≠ "authorization") → countAuthorization h = 0 := by
  induction h with
  | nil => intro _; rfl
  | cons p t ih =>
      intro hnone
      have hp : (jsToLower p.1 == "authorization") = false := by
        simpa using hnone p (by simp)
      have ht := ih (fun q hq => hnone q (by simp [hq]))
      simp [countAuthorization_cons, hp, ht]

theorem countAuthorization_setKey (h : StrRecord) (k v : String)
    (hk : (jsToLower k == "authorization") = false) :
    countAuthorization (setKey h k v) = countAuthorization h := by
  induction h with
  | nil => simp [setKey, countAuthorization_cons, hk, countAuthorization]
  | cons p t ih =>
      obtain ⟨k1, v1⟩ := p
      by_cases h1 : k1 = k
      · subst h1
        simp [setKey, countAuthorization_cons, hk]
      · simp [setKey, h1, countAuthorization_cons, ih]

theorem countAuthorization_setKey_authorization (h : StrRecord) (v : String)
    (h0 : countAuthorization h = 0) :
    countAuthorization (setKey h "Authorization" v) = 1 := by
  induction h with
  | nil =>
      have hA : (jsToLower "Authorization" == "authorization") = true := by decide
      simp [setKey, countAuthorization_cons, countAuthorization, hA]
  | cons p t ih =>
      obtain ⟨k1, v1⟩ := p
      rw [countAuthorization_cons] at h0
      have ht : countAuthorization t = 0 := Nat.eq_zero_of_add_eq_zero_right h0
      have hc1 : (if jsToLower k1 == "authorization" then 1 else 0) = 0 :=
        Nat.eq_zero_of_add_eq_zero_left h0
      have hk1 : (jsToLower k1 == "authorization") = false := by
        by_cases hx : (jsToLower k1 == "authorization") = true
        · simp [hx] at hc1
        · simpa using hx
      have hne : k1 ≠ "Authorization" := by
        intro he
        rw [he, show (jsToLower "Authorization" == "authorization") = true from by decide] at hk1
        exact absurd hk1 (by simp)
      simp [setKey, hne, countAuthorization_cons, hk1, ih ht]

theorem countAuthorization_attachBody (method : String) (body : Option String)
    (opts : FetchOptions) :
    countAuthorization (attachBody method body opts).headers =
      countAuthorization opts.headers := by
  unfold attachBody
  split
  · dsimp only
    split
    · rfl
    · exact countAuthorization_setKey _ _ _ (by decide)
  · rfl

/-- Claim C6: at most one `Authorization` header is ever set on the
outgoing request (when the user supplies none of their own, as the
spec leaves that case unspecified); when `auth` is basic or bearer the
auth-derived value is the one applied. -/
theorem claim6_single_authorization (m : WebviewMessage)
    (hnone : ∀ p ∈ m.headers.getD [], jsToLower p.1 ≠ "authorization") :
    countAuthorization (buildOptions m).headers ≤ 1 ∧
    (∀ a, m.auth = some a → a.type = "basic" →
      getKey (buildOptions m).headers "Authorization" =
        some ("Basic " ++
          base64OfString (jsTemplate a.username ++ ":" ++ jsTemplate a.password))) ∧
    (∀ a, m.auth = some a → a.type = "bearer" →
      getKey (buildOptions m).headers "Authorization" =
        some ("Bearer " ++ jsTemplate a.token)) := by
  have h0 : countAuthorization (m.headers.getD []) = 0 := countAuthorization_eq_zero _ hnone
  have hcount : countAuthorization (buildOptions m).headers =
      countAuthorization (applyAuth m.auth (m.headers.getD [])) := by
    rw [buildOptions_headers]
    exact countAuthorization_attachBody _ _ _
  have hget : ∀ v, getKey (applyAuth m.auth (m.headers.getD [])) "Authorization" = v →
      getKey (buildOptions m).headers "Authorization" = v := by
    intro v hv
    rw [buildOptions_headers, getKey_attachBody_ne _ _ _ _ (by decide)]
    exact hv
  refine ⟨?_, ?_, ?_⟩
  · rw [hcount]
    cases hauth : m.auth with
    | none => simp [applyAuth, h0]
    | some a =>
        by_cases h1 : a.type = "basic"
        · simp only [applyAuth, h1]
          simp [countAuthorization_setKey_authorization _ _ h0]
        · by_cases h2 : a.type = "bearer"
          · simp only [applyAuth, h1, h2]
            simp [h1, countAuthorization_setKey_authorization _ _ h0]
          · simp [applyAuth, h1, h2, h0]
  · intro a ha ht
    exact hget _ (by simp [applyAuth, ha, ht, getKey_setKey_self])
  · intro a ha ht
    have ht1 : a.type ≠ "basic" := by
      rw [ht]; decide
    exact hget _ (by simp [applyAuth, ha, ht, ht1, getKey_setKey_self])

/-- Witness for C6: a bearer request with a user header table free of
`Authorization` rows ends with exactly the bearer header applied. -/
theorem claim6_witness :
    countAuthorization (buildOptions
      { command := "makeRequest", url := some "http://x/", method := some "GET",
        headers := some [("Accept", "text/plain")],
        auth := some { type := "bearer", token := some "tok" } }).headers ≤ 1 ∧
    getKey (buildOptions
      { command := "makeRequest", url := some "http://x/", method := some "GET",
        headers := some [("Accept", "text/plain")],
        auth := some { type := "bearer", token := some "tok" } }).headers "Authorization" =
      some "Bearer tok" := by
  have h := claim6_single_authorization
    { command := "makeRequest", url := some "http://x/", method := some "GET",
      headers := some [("Accept", "text/plain")],
      auth := some { type := "bearer", token := some "tok" } } (by decide)
  exact ⟨h.1, (h.2.2 _ rfl rfl).trans (by decide)⟩

/-- Claim C7: every dispatched request sets the process-wide
`NODE_TLS_REJECT_UNAUTHORIZED` flag to "0" in the per-request call
path (whatever the outcome), and no code path ever restores it, so all
subsequent requests still observe the disabled validation. -/
theorem claim7_tls_flag_global :
    (∀ (m : WebviewMessage) (out : FetchOutcome) (startTime endTime : Nat) (env : ProcessEnv),
      ((makeRequest m (.dispatched out) startTime endTime env).2).nodeTlsRejectUnauthorized =
        some "0") ∧
    (∀ (m : WebviewMessage) (oracle : TryOutcome) (startTime endTime : Nat) (env : ProcessEnv),
      env.nodeTlsRejectUnauthorized = some "0" →
      ((makeRequest m oracle startTime endTime env).2).nodeTlsRejectUnauthorized =
        some "0") := by
  constructor
  · intro m out startTime endTime env
    cases out <;> rfl
  · intro m oracle startTime endTime env hflag
    cases oracle with
    | parseError err => simpa [makeRequest] using hflag
    | dispatched out => cases out <;> rfl

/-- Witness for C7: a failed dispatched request leaves the flag at "0",
and a following request that never dispatches (URL parse failure)
still ends with the flag at "0". -/
theorem claim7_witness :
    ((makeRequest { command := "makeRequest", url := some "https://self-signed.test/" }
        (.dispatched (.failure .otherErr)) 0 1 {}).2).nodeTlsRejectUnauthorized = some "0" ∧
    ((makeRequest { command := "makeRequest", url := some "not a url" }
        (.parseError .otherErr) 1 2
        { nodeTlsRejectUnauthorized := some "0" }).2).nodeTlsRejectUnauthorized = some "0" :=
  ⟨claim7_tls_flag_global.1 _ _ _ _ _, claim7_tls_flag_global.2 _ _ _ _ _ rfl⟩

/-- Claim C1 (amended): `makeRequest` is total, and on any failure
(URL parse error before dispatch, or a rejected fetch) it returns a
record with status 0, statusText "Error", empty headers and cookies,
body equal to the error message the catch block renders, and size
equal to the length of that body; the body is non-empty whenever the
rendered error message is. -/
theorem claim1_failure_record (m : WebviewMessage) (e : CaughtError)
    (startTime endTime : Nat) (env : ProcessEnv) (oracle : TryOutcome)
    (hfail : oracle = .parseError e ∨ oracle = .dispatched (.failure e)) :
    ((makeRequest m oracle startTime endTime env).1).status = 0 ∧
    ((makeRequest m oracle startTime endTime env).1).statusText = "Error" ∧
    ((makeRequest m oracle startTime endTime env).1).headers = [] ∧
    ((makeRequest m oracle startTime endTime env).1).cookies = [] ∧
    ((makeRequest m oracle startTime endTime env).1).body = errorMessageOf e ∧
    ((makeRequest m oracle startTime endTime env).1).size =
      ((makeRequest m oracle startTime endTime env).1).body.length ∧
    (errorMessageOf e ≠ "" → ((makeRequest m oracle startTime endTime env).1).body ≠ "") := by
  rcases hfail with rfl | rfl <;> exact ⟨rfl, rfl, rfl, rfl, rfl, rfl, fun hne => hne⟩

/-- Witness for C1 at a DNS-style failure with the message node would
produce for `http://invalid.invalid/`. -/
theorem claim1_witness :
    ((makeRequest
        { command := "makeRequest", url := some "http://invalid.invalid/",
          method := some "GET" }
        (.dispatched (.failure (.errorObj "getaddrinfo ENOTFOUND invalid.invalid")))
        0 5 {}).1).status = 0 ∧
    ((makeRequest
        { command := "makeRequest", url := some "http://invalid.invalid/",
          method := some "GET" }
        (.dispatched (.failure (.errorObj "getaddrinfo ENOTFOUND invalid.invalid")))
        0 5 {}).1).body ≠ "" := by
  have h := claim1_failure_record
    { command := "makeRequest", url := some "http://invalid.invalid/", method := some "GET" }
    (.errorObj "getaddrinfo ENOTFOUND invalid.invalid") 0 5 {}
    (.dispatched (.failure (.errorObj "getaddrinfo ENOTFOUND invalid.invalid"))) (Or.inr rfl)
  exact ⟨h.1, h.2.2.2.2.2.2 (by decide)⟩

/-- Counterexample to C1 as stated: a transport failure whose error
object carries an empty message (`new Error("")`) produces a failure
record whose body is the empty string, so the body is not always a
non-empty message. -/
theorem claim1_counterexample :
    ((makeRequest
        { command := "makeRequest", url := some "http://invalid.invalid/",
          method := some "GET" }
        (.dispatched (.failure (.errorObj ""))) 0 5 {}).1).status = 0 ∧
    ((makeRequest
        { command := "makeRequest", url := some "http://invalid.invalid/",
          method := some "GET" }
        (.dispatched (.failure (.errorObj ""))) 0 5 {}).1).body = "" := by
  exact ⟨rfl, rfl⟩

/-! ## Cookie parsing (C2) -/

/-- Counterexample to C2 as stated: the code does not split a segment
on the FIRST equals sign (a value containing "=" is cut at the second
one), and it does not drop segments whose name is empty only after
trimming (it stores them under the trimmed, empty, name). On both
inputs the code and the claimed parser disagree. -/
theorem claim2_counterexample :
    parseCookies (some "k=v=w") = [("k", "v")] ∧
    specParseCookies (some "k=v=w") = [("k", "v=w")] ∧
    parseCookies (some " =x") = [("", "x")] ∧
    specParseCookies (some " =x") = [] ∧
    parseCookies (some "k=v=w") ≠ specParseCookies (some "k=v=w") ∧
    parseCookies (some " =x") ≠ specParseCookies (some " =x") := by decide

theorem cookieStep_amended (cookies : StrRecord) (cookie : String) :
    cookieStep cookies cookie =
      match amendedSegmentPair cookie with
      | some p => setKey cookies p.1 p.2
      | none => cookies := by
  unfold cookieStep amendedSegmentPair
  cases jsSplit cookie '=' with
  | nil => rfl
  | cons name tl =>
      cases tl with
      | nil => rfl
      | cons value tl2 =>
          by_cases htv : (truthy name && truthy value) = true
          · simp [htv]
          · simp only [Bool.not_eq_true] at htv
            simp [htv]

theorem parseCookies_filterMap (segs : List String) (acc : StrRecord) :
    segs.foldl cookieStep acc =
      (segs.filterMap amendedSegmentPair).foldl (fun a p => setKey a p.1 p.2) acc := by
  induction segs generalizing acc with
  | nil => rfl
  | cons s rest ih =>
      rw [List.foldl_cons, List.filterMap_cons, cookieStep_amended]
      cases hsp : amendedSegmentPair s with
      | none => exact ih acc
      | some p =>
          rw [List.foldl_cons]
          exact ih _

/-- Claim C2 (amended): the Normalizer builds the cookie mapping from
the `set-cookie` header alone; the header is split on ";", each
segment is split on "=" keeping the first two pieces (so a value
containing "=" is truncated at the second "="), segments lacking an
"=" or whose extracted name or value is the empty string before
trimming are dropped, and the surviving pairs are stored trimmed, in
order, a later pair overwriting an earlier equal name; the example
header yields exactly the mapping of the claim. -/
theorem claim2_cookie_parsing :
    (∀ (m : WebviewMessage) (status : Nat) (statusText : String)
       (headerEntries : List (String × String)) (setCookie : Option String) (text : String)
       (startTime endTime : Nat) (env : ProcessEnv),
      ((makeRequest m (.dispatched (.success status statusText headerEntries setCookie text))
          startTime endTime env).1).cookies = parseCookies setCookie) ∧
    (∀ h : Option String, parseCookies h = amendedParseCookies h) ∧
    parseCookies (some "a=1; b=2; Path=/") = [("a", "1"), ("b", "2"), ("Path", "/")] := by
  refine ⟨fun _ _ _ _ _ _ _ _ _ => rfl, ?_, by decide⟩
  intro h
  cases h with
  | none => rfl
  | some s => exact parseCookies_filterMap (jsSplit s ';') []

/-! ## History controller (C8, C9, C10) -/

theorem handleMessage_state (s : ControllerState) (m : WebviewMessage) :
    (handleMessage s m).1 = s := by
  unfold handleMessage
  split_ifs <;> rfl

/-- Claim C8: every operation of the history controller either leaves
the history sequence unchanged or appends exactly one entry at the
end; a completion always appends its entry regardless of the current
content (no deduplication) and of the current length (no capacity
bound), and existing entries keep position and contents. -/
theorem claim8_history_append_only :
    (∀ (s : ControllerState) (e : Event),
      (stepEvent s e).1.history = s.history ∨
      ∃ entry, (stepEvent s e).1.history = s.history ++ [entry]) ∧
    (∀ (s : ControllerState) (m : WebviewMessage) (r : ResponseData) (ts : Nat),
      (stepEvent s (.completion m r ts)).1.history = s.history ++ [entryOf m r ts]) := by
  constructor
  · intro s e
    cases e with
    | message m => exact Or.inl (by rw [stepEvent, handleMessage_state])
    | completion m r ts => exact Or.inr ⟨entryOf m r ts, rfl⟩
  · intro s m r ts
    rfl

theorem runEvents_history (evs : List Event) (s : ControllerState) :
    (runEvents s evs).history = s.history ++ evs.filterMap completionEntry := by
  induction evs generalizing s with
  | nil => simp [runEvents]
  | cons e rest ih =>
      cases e with
      | message m =>
          rw [runEvents, ih]
          rw [show (stepEvent s (.message m)).1 = s from handleMessage_state s m]
          simp [completionEntry]
      | completion m r ts =>
          rw [runEvents, ih]
          simp [stepEvent, handleCompletion, completionEntry, entryOf]

/-- Claim C9: history entries are appended in the order the network
calls complete, not the order of submission: in general the history is
the sequence of completion events in event order, and in particular
submissions A, B, C completing in order B, A, C yield the history
[B, A, C]. -/
theorem claim9_completion_order :
    (∀ (s : ControllerState) (evs : List Event),
      (runEvents s evs).history = s.history ++ evs.filterMap completionEntry) ∧
    (∀ (mA mB mC : WebviewMessage) (rA rB rC : ResponseData) (tA tB tC : Nat),
      (runEvents { history := [] }
        [.message mA, .message mB, .message mC,
         .completion mB rB tB, .completion mA rA tA, .completion mC rC tC]).history =
        [entryOf mB rB tB, entryOf mA rA tA, entryOf mC rC tC]) := by
  refine ⟨fun s evs => runEvents_history evs s, ?_⟩
  intro mA mB mC rA rB rC tA tB tC
  rw [runEvents_history]
  simp [completionEntry]

/-- Claim C10: a message whose command is not one of makeRequest,
openLink, startNewRequest, and a makeRequest message missing its url
or method, cause no action at all: the state is unchanged and no
effect (network call, external open, panel creation, posted response,
re-render) is produced, in the history controller as well as in the
request-editor panel handler. -/
theorem claim10_ignored_messages :
    ∀ (s : ControllerState) (m : WebviewMessage),
      (m.command ∉ ["makeRequest", "openLink", "startNewRequest"] →
        stepEvent s (.message m) = (s, []) ∧ panelHandleMessage m = []) ∧
      (m.command = "makeRequest" → m.url = none ∨ m.method = none →
        stepEvent s (.message m) = (s, []) ∧ panelHandleMessage m = []) := by
  intro s m
  constructor
  · intro hcmd
    have h1 : m.command ≠ "makeRequest" := fun he => hcmd (by simp [he])
    have h2 : m.command ≠ "openLink" := fun he => hcmd (by simp [he])
    have h3 : m.command ≠ "startNewRequest" := fun he => hcmd (by simp [he])
    constructor
    · simp [stepEvent, handleMessage, h1, h2, h3]
    · simp [panelHandleMessage, h1]
  · intro hc hmiss
    constructor
    · rcases hmiss with h | h <;>
        simp [stepEvent, handleMessage, hc, h, otruthy]
    · rcases hmiss with h | h <;>
        simp [panelHandleMessage, hc, h, otruthy]

/-- Witness for C10: an unknown command, and a makeRequest without a
url, are both complete no-ops. -/
theorem claim10_witness :
    stepEvent { history := [] } (.message { command := "ping" }) = ({ history := [] }, []) ∧
    panelHandleMessage { command := "makeRequest", method := some "GET" } = [] := by
  constructor
  · exact ((claim10_ignored_messages { history := [] } { command := "ping" }).1 (by decide)).1
  · exact ((claim10_ignored_messages { history := [] }
      { command := "makeRequest", method := some "GET" }).2 rfl (Or.inl rfl)).2

end RestExplorer
